import Mathlib

/-!
Verification model of the persistent record store of the @hyperswarm/dht
package (lib code shipped in this repository as the Persistent class), plus a
small model of the connection-establishment abort path described by the spec
and pinned by test/connections.js.

Byte buffers are modelled as lists of naturals; the sodium crypto primitives
(BLAKE2b hashing and Ed25519 verification) are external collaborators and are
modelled as an explicit environment of functions, so every handler is an
executable Lean function of that environment, a store state, and a request.
-/

namespace HyperswarmDht

/-- A byte buffer (Node Buffer) as a list of naturals. -/
abbrev Bytes := List Nat

/-- Modelled from the spec: an ipv4+port relay address as carried in the peer
message (the exact wire layout of compact-encoding-net is external; only the
structure is needed). -/
structure Addr where
  ip : Nat
  port : Nat
deriving DecidableEq

/-- Modelled from the spec: the peer record of the announce payload,
publicKey 32 bytes plus an ordered list of relay addresses. -/
structure Peer where
  publicKey : Bytes
  relayAddresses : List Addr
deriving DecidableEq

/-- Modelled from the spec: the announce message, all three fields optional
(flag-gated in the wire encoding). -/
structure Announce where
  peer : Option Peer
  refresh : Option Bytes
  signature : Option Bytes
deriving DecidableEq

/-- Modelled from the spec: the mutable put request message
(publicKey 32 bytes, seq varint, optional value, signature). -/
structure MutablePutRequest where
  publicKey : Bytes
  seq : Nat
  value : Option Bytes
  signature : Bytes
deriving DecidableEq

/-- Modelled from the spec: a decoded mutable get response record
(seq, value, signature), the shape stored by an accepted mutable put. -/
structure MutableRec where
  seq : Nat
  value : Bytes
  signature : Bytes
deriving DecidableEq

/-! ### Codec

The messages module of this repository is not part of the provided sources;
the encodings below are modelled from the spec wire-payload section: a
length-prefixed byte-string combinator, flag-gated optional fields, and the
peer record laid out with its fixed 32-byte publicKey first (the store relies
on that: a stored record's first 32 bytes are read back as the publicKey). -/

/-- Length-prefixed byte string. -/
def encodeBytesLP (b : Bytes) : Bytes := b.length :: b

/-- Decode a length-prefixed byte string, returning the rest of the input. -/
def decodeBytesLP : Bytes → Option (Bytes × Bytes)
  | [] => none
  | n :: rest => if n ≤ rest.length then some (rest.take n, rest.drop n) else none

/-- Encode one relay address. -/
def encodeAddr (a : Addr) : Bytes := [a.ip, a.port]

/-- Encode a relay address list, length first. -/
def encodeAddrs (l : List Addr) : Bytes := l.length :: l.flatMap encodeAddr

/-- Decode a counted relay address list. -/
def decodeAddrList : Nat → Bytes → Option (List Addr × Bytes)
  | 0, rest => some ([], rest)
  | n + 1, ip :: port :: rest =>
    match decodeAddrList n rest with
    | some (as, r) => some (⟨ip, port⟩ :: as, r)
    | none => none
  | _ + 1, _ => none

/-- Encode a peer record: fixed 32-byte publicKey first, then the addresses. -/
def encodePeer (p : Peer) : Bytes := p.publicKey ++ encodeAddrs p.relayAddresses

/-- Decode a peer record; fails unless a 32-byte publicKey and a well-formed
address list consume the input exactly. -/
def decodePeer (b : Bytes) : Option Peer :=
  if b.length < 32 then none
  else
    match b.drop 32 with
    | [] => none
    | n :: rest =>
      match decodeAddrList n rest with
      | some (as, []) => some ⟨b.take 32, as⟩
      | _ => none

/-- Flag byte of an announce message: bit 0 peer, bit 1 refresh, bit 2 signature. -/
def announceFlags (a : Announce) : Nat :=
  (if a.peer.isSome then 1 else 0) +
  (if a.refresh.isSome then 2 else 0) +
  (if a.signature.isSome then 4 else 0)

/-- Encode an announce message: flags, then each present field length-prefixed. -/
def encodeAnnounce (a : Announce) : Bytes :=
  announceFlags a ::
    ((match a.peer with | some p => encodeBytesLP (encodePeer p) | none => []) ++
     (match a.refresh with | some r => encodeBytesLP r | none => []) ++
     (match a.signature with | some s => encodeBytesLP s | none => []))

/-- Decode one flag-gated field. -/
def decodeOptField (present : Bool) (b : Bytes) : Option (Option Bytes × Bytes) :=
  if present then
    match decodeBytesLP b with
    | some (v, rest) => some (some v, rest)
    | none => none
  else some (none, b)

/-- Decode an announce message; fails on junk and on trailing bytes. -/
def decodeAnnounce : Bytes → Option Announce
  | [] => none
  | flags :: rest =>
    if flags ≥ 8 then none
    else
      match decodeOptField (flags % 2 = 1) rest with
      | none => none
      | some (peerBytes, rest1) =>
        match decodeOptField (flags / 2 % 2 = 1) rest1 with
        | none => none
        | some (refresh, rest2) =>
          match decodeOptField (flags / 4 % 2 = 1) rest2 with
          | none => none
          | some (signature, rest3) =>
            if rest3 ≠ [] then none
            else
              match peerBytes with
              | none => some ⟨none, refresh, signature⟩
              | some pb =>
                match decodePeer pb with
                | some p => some ⟨some p, refresh, signature⟩
                | none => none

/-- Encode a mutable put request: publicKey (32 bytes raw), seq, flag-gated
value, length-prefixed signature. -/
def encodeMPR (p : MutablePutRequest) : Bytes :=
  p.publicKey ++
    (p.seq ::
      ((match p.value with | some v => 1 :: encodeBytesLP v | none => [0]) ++
       encodeBytesLP p.signature))

/-- Decode a mutable put request; requires the 32-byte publicKey and exact
consumption. -/
def decodeMPR (b : Bytes) : Option MutablePutRequest :=
  if b.length < 32 then none
  else
    match b.drop 32 with
    | seq :: 0 :: rest =>
      (match decodeBytesLP rest with
       | some (s, []) => some ⟨b.take 32, seq, none, s⟩
       | _ => none)
    | seq :: 1 :: rest =>
      (match decodeBytesLP rest with
       | some (v, rest1) =>
         (match decodeBytesLP rest1 with
          | some (s, []) => some ⟨b.take 32, seq, some v, s⟩
          | _ => none)
       | none => none)
    | _ => none

/-- Encode a stored mutable record (mutableGetResponse): seq first — the store
reads the seq back by decoding a uint off the front — then value and
signature length-prefixed. -/
def encodeMGR (seq : Nat) (value signature : Bytes) : Bytes :=
  seq :: (encodeBytesLP value ++ encodeBytesLP signature)

/-- Decode a stored mutable record. -/
def decodeMGR (b : Bytes) : Option MutableRec :=
  match b with
  | seq :: rest =>
    (match decodeBytesLP rest with
     | some (v, rest1) =>
       (match decodeBytesLP rest1 with
        | some (s, []) => some ⟨seq, v, s⟩
        | _ => none)
     | none => none)
  | [] => none

/-- Encode the signable body of a mutable put, the mutableSignable message
over seq and value. -/
def encodeMutableSignable (seq : Nat) (value : Bytes) : Bytes :=
  seq :: encodeBytesLP value

/-- Encoding of c.array(c.raw): element count, then the raw records
concatenated. -/
def encodeRawArray (rs : List Bytes) : Bytes := rs.length :: rs.flatMap id

/-- Hex digit character, lowercase, as Buffer.toString with hex produces. -/
def hexDigitChar (n : Nat) : Char :=
  if n < 10 then Char.ofNat (48 + n) else Char.ofNat (87 + n)

/-- Hex encoding of a byte buffer, Buffer.prototype.toString with hex. -/
def hexStr (bs : Bytes) : String :=
  String.mk (bs.flatMap (fun b => [hexDigitChar (b / 16 % 16), hexDigitChar (b % 16)]))

/-! ### Store state

The router of the DHT node is a JS Map. Its keys as written by this file are
hex strings, but one handler looks the Map up with a raw buffer; a JS Map
never equates a Buffer object with a string, so keys are modelled as a sum of
the two shapes, with equality never crossing the two constructors. -/

/-- A JS Map key as used for the router: either a hex string or a raw buffer
object (Map key equality is SameValueZero, so a buffer never equals a string). -/
inductive RKey
  | str (s : String)
  | buf (b : Bytes)
deriving DecidableEq

/-- Modelled from the spec: a router entry, relay address of the introducing
node plus the encoded peer record. Every write in this file sets the
onconnect and onholepunch hooks to null, so they are omitted. -/
structure RouterEntry where
  relay : Nat
  record : Bytes
deriving DecidableEq

/-- A refresh slot: the stored record, its key, and whether replaying it
reinstalls the router entry. -/
structure RefreshEntry where
  announceSelf : Bool
  k : String
  record : Bytes
deriving DecidableEq

/-- One record-cache entry, keyed by the pair of target hex string and
publicKey. -/
structure RecEntry where
  name : String
  key : Bytes
  record : Bytes
deriving DecidableEq

/-- Association-list get (JS Map.get). -/
def alGet {κ α : Type} [DecidableEq κ] : List (κ × α) → κ → Option α
  | [], _ => none
  | e :: rest, k => if e.1 = k then some e.2 else alGet rest k

/-- Association-list delete (JS Map.delete). -/
def alDelete {κ α : Type} [DecidableEq κ] : List (κ × α) → κ → List (κ × α)
  | [], _ => []
  | e :: rest, k => if e.1 = k then alDelete rest k else e :: alDelete rest k

/-- Association-list set (JS Map.set): at most one binding per key. -/
def alSet {κ α : Type} [DecidableEq κ] (m : List (κ × α)) (k : κ) (v : α) :
    List (κ × α) :=
  (k, v) :: alDelete m k

/-- Modelled from the spec: record-cache removal of the (target, publicKey)
tuple. -/
def recRemove : List RecEntry → String → Bytes → List RecEntry
  | [], _, _ => []
  | e :: rest, k, pk =>
    if e.name = k ∧ e.key = pk then recRemove rest k pk
    else e :: recRemove rest k pk

/-- Modelled from the spec: record-cache add; duplicate announces converge to
a single slot per (target, publicKey). -/
def recAdd (rs : List RecEntry) (k : String) (pk record : Bytes) : List RecEntry :=
  ⟨k, pk, record⟩ :: recRemove rs k pk

/-- The record stored under a (target, publicKey) tuple, if any. -/
def recLookup : List RecEntry → String → Bytes → Option Bytes
  | [], _, _ => none
  | e :: rest, k, pk =>
    if e.name = k ∧ e.key = pk then some e.record else recLookup rest k pk

/-- All records stored under a target. -/
def recordsFor : List RecEntry → String → List Bytes
  | [], _ => []
  | e :: rest, k =>
    if e.name = k then e.record :: recordsFor rest k else recordsFor rest k

/-- Modelled from the spec: record-cache get of up to n records for a target. -/
def recGet (rs : List RecEntry) (k : String) (n : Nat) : List Bytes :=
  (recordsFor rs k).take n

/-- The mutable state owned by one Persistent store: the router Map of its
DHT node, the announce record cache, and the refresh, mutable and immutable
caches. -/
structure State where
  router : List (RKey × RouterEntry)
  records : List RecEntry
  refreshes : List (String × RefreshEntry)
  mutables : List (String × Bytes)
  immutables : List (String × Bytes)
deriving DecidableEq

/-- The environment of external collaborators: BLAKE2b in its plain, keyed
and keyed-batch forms, Ed25519 detached verification, and the DHT node id. -/
structure Env where
  gh : Bytes → Bytes
  ghK : Bytes → Bytes → Bytes
  ghBatch : List Bytes → Bytes → Bytes
  verify : Bytes → Bytes → Bytes → Bool
  id : Bytes

/-- Modelled from the spec: the three hash namespaces; their concrete values
live in the constants module, only their distinctness matters here. -/
def NS_ANNOUNCE : Bytes := [0]

/-- Modelled from the spec: the unannounce namespace. -/
def NS_UNANNOUNCE : Bytes := [1]

/-- Modelled from the spec: the mutable put namespace. -/
def NS_MUTABLE_PUT : Bytes := [2]

/-- Modelled from the spec: wire error code 0. -/
def SEQ_REUSED : Nat := 0

/-- Modelled from the spec: wire error code 1. -/
def SEQ_TOO_LOW : Nat := 1

/-- An incoming DHT request as seen by the store handlers: optional target,
token and value buffers plus the sender address (opaque). dht-rpc materialises
absent buffers as null, modelled by none. -/
structure Req where
  target : Option Bytes
  token : Option Bytes
  value : Option Bytes
  fromNode : Nat
deriving DecidableEq

/-- A reply action taken by a handler: a payload reply or a typed error. -/
inductive Reply
  | payload (v : Option Bytes)
  | err (code : Nat)
deriving DecidableEq

/-- The outcome of running a handler: a normal return carrying the new state
and the reply it sent (if any), or an uncaught JS exception. -/
inductive HOutcome
  | ok (st : State) (rep : Option Reply)
  | threw
deriving DecidableEq

/-! ### Handlers

Each definition follows the corresponding method of the Persistent class in
the source, line by line; line numbers in comments refer to that file. -/

/-- The records an onlookup reply carries (lines 64-68): up to 20 cache
records for the target, with the local router record appended when the router
has the key (as a hex string) and fewer than 20 cache records were found. -/
def lookupRecords (st : State) (k : String) : List Bytes :=
  let records := recGet st.records k 20
  match alGet st.router (RKey.str k) with
  | some fwd => if records.length < 20 then records ++ [fwd.record] else records
  | none => records

/-- onlookup (lines 61-71). -/
def onlookup (_env : Env) (st : State) (req : Req) : HOutcome :=
  match req.target with
  | none => .ok st none
  | some target =>
    let records := lookupRecords st (hexStr target)
    .ok st (some (.payload
      (if records.length = 0 then none else some (encodeRawArray records))))

/-- onfindpeer (lines 73-77). Line 75 looks the router Map up with the raw
target buffer, not its hex string. -/
def onfindpeer (_env : Env) (st : State) (req : Req) : HOutcome :=
  match req.target with
  | none => .ok st none
  | some target =>
    match alGet st.router (RKey.buf target) with
    | some fwd => .ok st (some (.payload (some fwd.record)))
    | none => .ok st (some (.payload none))

/-- The unannounce helper (lines 79-85): drop the router entry when the hash
of the publicKey equals the target, and always drop the cache tuple. -/
def unannounceStep (env : Env) (st : State) (target pk : Bytes) : State :=
  let k := hexStr target
  { st with
    router := if env.gh pk = target then alDelete st.router (RKey.str k) else st.router
    records := recRemove st.records k pk }

/-- The announce and unannounce signable (lines 292-304) for a payload whose
peer is present: the keyed batch hash of target, node id, token, the encoded
peer, and the refresh token or the empty buffer. In the source annSignable
takes the whole announce message and encoding an absent peer throws, which is
modelled at the call sites. -/
def annSignablePeer (env : Env) (target token : Bytes) (peer : Peer)
    (refresh : Option Bytes) (ns : Bytes) : Bytes :=
  env.ghBatch [target, env.id, token, encodePeer peer, refresh.getD []] ns

/-- onunannounce (lines 87-104). -/
def onunannounce (env : Env) (st : State) (req : Req) : HOutcome :=
  match req.target with
  | none => .ok st none
  | some target =>
  match req.token with
  | none => .ok st none
  | some token =>
  match req.value with
  | none => .ok st none   -- decode of a null value yields null (line 306-312)
  | some v =>
  match decodeAnnounce v with
  | none => .ok st none
  | some unann =>
  match unann.peer with
  | none => .ok st none   -- line 94
  | some peer =>
  match unann.signature with
  | none => .ok st none   -- line 94
  | some signature =>
  if env.verify signature
      (annSignablePeer env target token peer unann.refresh NS_UNANNOUNCE)
      peer.publicKey then
    .ok (unannounceStep env st target peer.publicKey) (some (.payload none))
  else .ok st none

/-- The state change of a hit in the refresh handler (lines 113-129): replay
the stored record (router when announceSelf, record cache otherwise, with the
publicKey read back as the first 32 bytes of the record), clear the
hash-indexed slot and re-bind the entry under the hex of the token itself. -/
def refreshStore (st : State) (fromNode : Nat) (r : RefreshEntry)
    (activeRefresh tokenHex : String) : State :=
  let publicKey := r.record.take 32
  let st1 :=
    if r.announceSelf then
      { st with
        router := alSet st.router (RKey.str r.k) ⟨fromNode, r.record⟩
        records := recRemove st.records r.k publicKey }
    else
      { st with records := recAdd st.records r.k publicKey r.record }
  { st1 with
    refreshes := alSet (alDelete st1.refreshes activeRefresh) tokenHex r }

/-- The refresh handler (lines 106-132): looks the refresh cache up under the
hex of the hash of the token and replays. No signature is checked: the
environment's verify function is never applied. -/
def onrefresh (env : Env) (st : State) (token : Bytes) (req : Req) : HOutcome :=
  let activeRefresh := hexStr (env.gh token)
  match alGet st.refreshes activeRefresh with
  | none => .ok st none
  | some r =>
    .ok (refreshStore st req.fromNode r activeRefresh (hexStr token))
      (some (.payload none))

/-- The state change of a verified announce (lines 159-179), for the peer as
stored (relay addresses already truncated): install the record in the router
and drop the cache duplicate when the hash of the publicKey equals the
target, otherwise add it to the record cache; then bind the refresh slot when
a refresh token came along. -/
def announceStore (env : Env) (st : State) (fromNode : Nat) (target : Bytes)
    (peer1 : Peer) (refresh : Option Bytes) : State :=
  let k := hexStr target
  let announceSelf := env.gh peer1.publicKey = target
  let record := encodePeer peer1
  let st1 :=
    if announceSelf then
      { st with
        router := alSet st.router (RKey.str k) ⟨fromNode, record⟩
        records := recRemove st.records k peer1.publicKey }
    else
      { st with records := recAdd st.records k peer1.publicKey record }
  match refresh with
  | some r =>
    { st1 with
      refreshes := alSet st1.refreshes (hexStr r) ⟨announceSelf, k, record⟩ }
  | none => st1

/-- onannounce (lines 134-182). Line 140 computes the signable before the
peer-presence check at line 143: encoding the absent peer of a refresh-only
payload throws a TypeError there, so the refresh dispatch at line 145 is
unreachable and a peer-less payload makes the handler throw. -/
def onannounce (env : Env) (st : State) (req : Req) : HOutcome :=
  match req.target with
  | none => .ok st none
  | some target =>
  match req.token with
  | none => .ok st none
  | some token =>
  match req.value with
  | none => .ok st none   -- decode of a null value yields null (line 306-312)
  | some v =>
  match decodeAnnounce v with
  | none => .ok st none
  | some ann =>
  match ann.peer with
  | none => .threw        -- line 140 throws inside annSignable
  | some peer =>
  let signable := annSignablePeer env target token peer ann.refresh NS_ANNOUNCE
  match ann.signature with
  | none => .ok st none   -- line 149
  | some signature =>
  if env.verify signature signable peer.publicKey then
    -- lines 155-157: truncate the relay addresses to at most 3
    let peer1 : Peer :=
      { peer with
        relayAddresses :=
          if peer.relayAddresses.length > 3 then peer.relayAddresses.take 3
          else peer.relayAddresses }
    .ok (announceStore env st req.fromNode target peer1 ann.refresh)
      (some (.payload none))
  else .ok st none

/-- onmutableget (lines 184-204). -/
def onmutableget (_env : Env) (st : State) (req : Req) : HOutcome :=
  match req.target with
  | none => .ok st none
  | some target =>
  match req.value with
  | none => .ok st none
  | some v =>
  match v.head? with     -- uint decode of the request value; junk is caught
  | none => .ok st none
  | some seq =>
    match alGet st.mutables (hexStr target) with
    | none => .ok st (some (.payload none))
    | some value =>
      -- stored values always start with their seq (encodeMGR)
      let localSeq := value.headD 0
      .ok st (some (.payload (if localSeq < seq then none else some value)))

/-- verifyMutable (lines 286-290). -/
def verifyMutable (env : Env) (signature : Bytes) (seq : Nat) (value pk : Bytes) :
    Bool :=
  env.verify signature (env.ghK (encodeMutableSignable seq value) NS_MUTABLE_PUT) pk

/-- onmutableput (lines 206-237). When a record is already stored under the
key, line 224 applies the mutableGetResponse encoder to the stored byte
buffer instead of decoding it; the buffer has no seq, value or signature
fields, and encoding the absent fixed-64 signature field throws a TypeError,
so the seq comparison branches and the store update are unreachable there. -/
def onmutableput (env : Env) (st : State) (req : Req) : HOutcome :=
  match req.target with
  | none => .ok st none
  | some target =>
  match req.token with
  | none => .ok st none
  | some _token =>
  match req.value with
  | none => .ok st none
  | some v =>
  match decodeMPR v with
  | none => .ok st none
  | some p =>
  let hash := env.gh p.publicKey
  if hash = target then
    match p.value with
    | none => .ok st none   -- line 218
    | some value =>
      if verifyMutable env p.signature p.seq value p.publicKey then
        let k := hexStr hash
        match alGet st.mutables k with
        | some _local => .threw   -- line 224 throws
        | none =>
          .ok { st with
                mutables := alSet st.mutables k (encodeMGR p.seq value p.signature) }
            (some (.payload none))
      else .ok st none
  else .ok st none

/-- Modelled from the spec: onmutableput as the spec describes the conflict
check — the stored buffer is decoded back to its record, a seq-equal put with
a differing value is answered with the SEQ_REUSED error, a lower seq with
SEQ_TOO_LOW, and anything else is stored and acknowledged. This is the
intended reading of line 224 (decode in place of encode); the actual handler
above is compared against it. -/
def onmutableputSpec (env : Env) (st : State) (req : Req) : HOutcome :=
  match req.target with
  | none => .ok st none
  | some target =>
  match req.token with
  | none => .ok st none
  | some _token =>
  match req.value with
  | none => .ok st none
  | some v =>
  match decodeMPR v with
  | none => .ok st none
  | some p =>
  let hash := env.gh p.publicKey
  if hash = target then
    match p.value with
    | none => .ok st none
    | some value =>
      if verifyMutable env p.signature p.seq value p.publicKey then
        let k := hexStr hash
        let store : HOutcome :=
          .ok { st with
                mutables := alSet st.mutables k (encodeMGR p.seq value p.signature) }
            (some (.payload none))
        match alGet st.mutables k with
        | some localBuf =>
          (match decodeMGR localBuf with
           | some existing =>
             if existing.seq = p.seq ∧ value ≠ existing.value then
               .ok st (some (.err SEQ_REUSED))
             else if p.seq < existing.seq then
               .ok st (some (.err SEQ_TOO_LOW))
             else store
           | none => .threw)
        | none => store
      else .ok st none
  else .ok st none

/-- onimmutableget (lines 239-246). -/
def onimmutableget (_env : Env) (st : State) (req : Req) : HOutcome :=
  match req.target with
  | none => .ok st none
  | some target =>
    .ok st (some (.payload (alGet st.immutables (hexStr target))))

/-- onimmutableput (lines 248-259). -/
def onimmutableput (env : Env) (st : State) (req : Req) : HOutcome :=
  match req.target with
  | none => .ok st none
  | some target =>
  match req.token with
  | none => .ok st none
  | some _token =>
  match req.value with
  | none => .ok st none
  | some v =>
  let hash := env.gh v
  if hash = target then
    .ok { st with immutables := alSet st.immutables (hexStr hash) v }
      (some (.payload none))
  else .ok st none

/-! ### Connection establishment (spec model)

The connect, server and hole-punch code of this repository is not among the
provided sources (only its test suite is), so the abort path is modelled from
the spec. -/

/-- Modelled from the spec: the firewall classification of a node. -/
inductive Firewall
  | unfiltered
  | consistent
  | random
deriving DecidableEq

/-- Events observable on the client connect socket. -/
inductive CEvent
  | opened
  | errored (code : Nat)
  | closed
deriving DecidableEq

/-- Modelled from the spec: wire error code 4. -/
def HOLEPUNCH_ABORTED : Nat := 4

/-- Modelled from the spec: wire error code 5. -/
def HOLEPUNCH_TIMEOUT : Nat := 5

/-- A user hole-punch hook: remote firewall, local firewall, remote address,
local address, to a go-ahead boolean. -/
abbrev Hook := Firewall → Firewall → Addr → Addr → Bool

/-- The outcome of one connection attempt: the terminal events seen by the
client socket, and whether the server's onConnection callback fired. -/
structure ConnOutcome where
  clientEvents : List CEvent
  serverConnection : Bool
deriving DecidableEq

/-- Modelled from the spec: the connection-establishment path of connect,
sections 4.3 and 4.4 — the optional holepunch hook of either side may veto
before probing starts, and returning false aborts with HOLEPUNCH_ABORTED; the
abort is forwarded through the relay, the client socket surfaces a terminal
error then close, and no connection is delivered to the server. When neither
side vetoes, probing either locks a flow (open fires on the client and the
server receives the connection) or times out with HOLEPUNCH_TIMEOUT. -/
def establishConnection (serverHook clientHook : Hook)
    (serverFw clientFw : Firewall) (serverAddr clientAddr : Addr)
    (punchSucceeds : Bool) : ConnOutcome :=
  if serverHook clientFw serverFw clientAddr serverAddr = false ∨
     clientHook serverFw clientFw serverAddr clientAddr = false then
    { clientEvents := [.errored HOLEPUNCH_ABORTED, .closed]
      serverConnection := false }
  else if punchSucceeds then
    { clientEvents := [.opened], serverConnection := true }
  else
    { clientEvents := [.errored HOLEPUNCH_TIMEOUT, .closed]
      serverConnection := false }

/-! ### Concrete fixtures

Small closed instances used by the counterexample and witness theorems: a
toy environment whose hash is the first 32 bytes of its input and whose
verification always succeeds, one that always fails verification, and a few
concrete requests. -/

/-- A toy environment: hashing takes the first 32 bytes, verification always
succeeds. -/
def env0 : Env :=
  { gh := fun b => b.take 32
    ghK := fun b _ => b.take 32
    ghBatch := fun l ns => (l.flatMap id ++ ns).take 32
    verify := fun _ _ _ => true
    id := [1] }

/-- A toy environment whose verification always fails. -/
def envF : Env :=
  { env0 with verify := fun _ _ _ => false }

/-- The empty store. -/
def st0 : State := ⟨[], [], [], [], []⟩

/-- A 32-byte public key. -/
def pkA : Bytes := List.replicate 32 7

/-- The self-announce target of pkA under env0. -/
def targetA : Bytes := pkA

/-- A peer record for pkA with no relay addresses. -/
def peerA : Peer := ⟨pkA, []⟩

/-- A signed announce payload for peerA. -/
def annA : Announce := ⟨some peerA, none, some [3, 3]⟩

/-- The announce request installing peerA as the router entry for targetA. -/
def reqAnnA : Req := ⟨some targetA, some [2], some (encodeAnnounce annA), 42⟩

/-- The store state after reqAnnA is handled: the router holds the record
under the hex string of targetA. -/
def stAfterAnnA : State :=
  ⟨[(RKey.str (hexStr targetA), ⟨42, encodePeer peerA⟩)], [], [], [], []⟩

/-- A findPeer request for targetA. -/
def reqFindA : Req := ⟨some targetA, none, none, 43⟩

/-- A 32-byte public key for the mutable store. -/
def pkM : Bytes := List.replicate 32 5

/-- The mutable target of pkM under env0. -/
def targetM : Bytes := pkM

/-- A first mutable put: seq 1, value 10. -/
def mpr1 : MutablePutRequest := ⟨pkM, 1, some [10], [11]⟩

/-- A conflicting mutable put: seq 1 again, a different value. -/
def mpr2 : MutablePutRequest := ⟨pkM, 1, some [12], [11]⟩

/-- A stale mutable put: seq 0. -/
def mprLow : MutablePutRequest := ⟨pkM, 0, some [13], [11]⟩

/-- The request carrying mpr1. -/
def reqPut1 : Req := ⟨some targetM, some [2], some (encodeMPR mpr1), 7⟩

/-- The request carrying mpr2. -/
def reqPut2 : Req := ⟨some targetM, some [2], some (encodeMPR mpr2), 7⟩

/-- The request carrying mprLow. -/
def reqPutLow : Req := ⟨some targetM, some [2], some (encodeMPR mprLow), 7⟩

/-- The store state after reqPut1 is accepted into the empty store. -/
def stM1 : State :=
  ⟨[], [], [], [(hexStr targetM, encodeMGR 1 [10] [11])], []⟩

/-- A store with one router entry and one cache record for targetA. -/
def stL : State :=
  ⟨[(RKey.str (hexStr targetA), ⟨9, [1]⟩)], [⟨hexStr targetA, pkA, [2]⟩],
    [], [], []⟩

/-- A lookup request for targetA. -/
def reqLookA : Req := ⟨some targetA, none, none, 6⟩

/-- A refresh token longer than a hash, so that its hash differs from it. -/
def tokenW : Bytes := List.replicate 33 4

/-- A refresh slot entry replaying pkA's record as a self-announce. -/
def rW : RefreshEntry := ⟨true, hexStr targetA, pkA ++ [9]⟩

/-- A store holding rW under the hex of the hash of tokenW. -/
def stR : State := ⟨[], [], [(hexStr (env0.gh tokenW), rW)], [], []⟩

/-- A bare request used to drive the refresh handler. -/
def reqR : Req := ⟨none, none, none, 8⟩

/-- An unannounce request for targetA carrying the same signed payload. -/
def reqUnannA : Req := ⟨some targetA, some [2], some (encodeAnnounce annA), 44⟩

/-- An immutable put whose value hashes to its target under env0. -/
def reqImmOk : Req := ⟨some [1], some [2], some [1], 5⟩

/-- An immutable put whose value does not hash to its target under env0. -/
def reqImmBad : Req := ⟨some [2], some [2], some [1], 5⟩

/-- An immutable get for the mismatched target above. -/
def reqImmGet : Req := ⟨some [2], none, none, 5⟩

/-- The relay address truncation applied on storage. -/
def truncatePeer (p : Peer) : Peer :=
  { p with relayAddresses := p.relayAddresses.take 3 }

/-! ### Helper lemmas -/

/-- Deleting a key removes exactly its binding. -/
theorem alGet_alDelete {κ α : Type} [DecidableEq κ] (m : List (κ × α)) (k' k : κ) :
    alGet (alDelete m k') k = if k = k' then none else alGet m k := by
  induction m with
  | nil => by_cases h : k = k' <;> simp [alDelete, alGet, h]
  | cons e rest ih =>
    by_cases h1 : e.1 = k' <;> by_cases h2 : k = k' <;> by_cases h3 : e.1 = k <;>
      simp_all [alDelete, alGet]

/-- Setting a key binds it and leaves other keys alone. -/
theorem alGet_alSet {κ α : Type} [DecidableEq κ] (m : List (κ × α)) (k' : κ)
    (v : α) (k : κ) :
    alGet (alSet m k' v) k = if k = k' then some v else alGet m k := by
  by_cases h : k = k'
  · simp [alSet, alGet, h]
  · have h' : ¬ k' = k := fun e => h e.symm
    simp [alSet, alGet, h, h', alGet_alDelete]

/-- Removing a record tuple removes its binding. -/
theorem recLookup_recRemove (rs : List RecEntry) (k : String) (pk : Bytes) :
    recLookup (recRemove rs k pk) k pk = none := by
  induction rs with
  | nil => simp [recRemove, recLookup]
  | cons e rest ih =>
    by_cases h : e.name = k ∧ e.key = pk
    · simpa [recRemove, if_pos h] using ih
    · simp only [recRemove, if_neg h, recLookup]
      exact ih

/-- Adding a record tuple binds it. -/
theorem recLookup_recAdd_self (rs : List RecEntry) (k : String) (pk r : Bytes) :
    recLookup (recAdd rs k pk r) k pk = some r := by
  simp [recAdd, recLookup]

/-- The record cache hands back at most n records. -/
theorem recGet_length_le (rs : List RecEntry) (k : String) (n : Nat) :
    (recGet rs k n).length ≤ n := by
  simp [recGet]

/-- The source truncation (slice to 3 when longer than 3) is the plain take. -/
theorem truncate3_eq_take (l : List Addr) :
    (if l.length > 3 then l.take 3 else l) = l.take 3 := by
  by_cases h : l.length > 3
  · simp [h]
  · simp [h, List.take_of_length_le (Nat.le_of_not_lt h)]

/-- A lookup reply never exceeds 20 records. -/
theorem lookupRecords_length_le (st : State) (k : String) :
    (lookupRecords st k).length ≤ 20 := by
  unfold lookupRecords
  match h : alGet st.router (RKey.str k) with
  | none => simpa using recGet_length_le st.records k 20
  | some fwd =>
    simp only [h]
    by_cases hl : (recGet st.records k 20).length < 20
    · simp [hl]
      omega
    · simpa [hl] using recGet_length_le st.records k 20

/-! ### Claim theorems -/

/-- C1: for every announce request carrying a target, a token and a decodable
payload with a peer and a signature, the store keeps the record only after
the Ed25519 signature verifies over the announce signable; the stored
record's relay address list is truncated to at most 3 entries; when the
BLAKE2b hash of the peer's publicKey equals the target the record is
installed as the router entry for the target with the request sender as
relay and the cache duplicate under (target, publicKey) is removed, and
otherwise the record is added to the cache under (target, publicKey) with
the router left unchanged. -/
theorem announce_stores_only_verified (env : Env) (st : State) (req : Req)
    (target token v : Bytes) (ann : Announce) (peer : Peer) (signature : Bytes)
    (ht : req.target = some target) (htok : req.token = some token)
    (hv : req.value = some v) (hd : decodeAnnounce v = some ann)
    (hp : ann.peer = some peer) (hs : ann.signature = some signature) :
    (env.verify signature
        (annSignablePeer env target token peer ann.refresh NS_ANNOUNCE)
        peer.publicKey = false →
      onannounce env st req = .ok st none) ∧
    (env.verify signature
        (annSignablePeer env target token peer ann.refresh NS_ANNOUNCE)
        peer.publicKey = true →
      onannounce env st req =
        .ok (announceStore env st req.fromNode target (truncatePeer peer)
              ann.refresh)
          (some (.payload none)) ∧
      (truncatePeer peer).relayAddresses.length ≤ 3 ∧
      (env.gh peer.publicKey = target →
        alGet (announceStore env st req.fromNode target (truncatePeer peer)
                ann.refresh).router (RKey.str (hexStr target)) =
          some ⟨req.fromNode, encodePeer (truncatePeer peer)⟩ ∧
        recLookup (announceStore env st req.fromNode target (truncatePeer peer)
                ann.refresh).records (hexStr target) peer.publicKey = none) ∧
      (env.gh peer.publicKey ≠ target →
        recLookup (announceStore env st req.fromNode target (truncatePeer peer)
                ann.refresh).records (hexStr target) peer.publicKey =
          some (encodePeer (truncatePeer peer)) ∧
        (announceStore env st req.fromNode target (truncatePeer peer)
                ann.refresh).router = st.router)) := by
  obtain ⟨rt, rtok, rv, rf⟩ := req
  simp only at ht htok hv
  subst ht htok hv
  constructor
  · intro hver
    simp [onannounce, hd, hp, hs, hver]
  · intro hver
    refine ⟨?_, ?_, ?_, ?_⟩
    · simp [onannounce, hd, hp, hs, hver, truncatePeer, truncate3_eq_take]
    · simp [truncatePeer]
    · intro hgh
      constructor
      · simp [announceStore, truncatePeer, hgh]
        cases ann.refresh <;> simp [alGet_alSet]
      · simp [announceStore, truncatePeer, hgh]
        cases ann.refresh <;> simp [recLookup_recRemove]
    · intro hgh
      constructor
      · simp [announceStore, truncatePeer, hgh]
        cases ann.refresh <;> simp [recLookup_recAdd_self]
      · simp [announceStore, truncatePeer, hgh]
        cases ann.refresh <;> simp

/-- Witness for C1 at a concrete self-announce: the record is installed in
the router under the hex target with relay 42 and no cache duplicate
remains. -/
theorem announce_stores_only_verified_witness :
    onannounce env0 st0 reqAnnA =
      .ok (announceStore env0 st0 42 targetA (truncatePeer peerA) none)
        (some (.payload none)) ∧
    alGet (announceStore env0 st0 42 targetA (truncatePeer peerA) none).router
        (RKey.str (hexStr targetA)) =
      some ⟨42, encodePeer (truncatePeer peerA)⟩ ∧
    recLookup (announceStore env0 st0 42 targetA (truncatePeer peerA)
        none).records (hexStr targetA) peerA.publicKey = none := by
  have h := announce_stores_only_verified env0 st0 reqAnnA targetA [2]
    (encodeAnnounce annA) annA peerA [3, 3] rfl rfl rfl (by decide) rfl rfl
  have h2 := h.2 rfl
  exact ⟨h2.1, (h2.2.2.1 (by decide)).1, (h2.2.2.1 (by decide)).2⟩

/-- C2: evaluation of the mutable put conflict handling at concrete inputs.
A first put (seq 1) is accepted; a second put with the same seq and a
differing value makes the handler throw instead of answering with the typed
SEQ_REUSED error, and a put with a lower seq makes it throw instead of
answering SEQ_TOO_LOW: line 224 applies the record encoder to the stored
byte buffer (instead of decoding it), and encoding the buffer's absent
fixed-64 signature field throws a TypeError before either error branch can
run. The spec-modelled handler with the decode in place answers exactly the
two typed errors. -/
theorem mutableput_seq_conflict_throws :
    onmutableput env0 st0 reqPut1 = .ok stM1 (some (.payload none)) ∧
    onmutableput env0 stM1 reqPut2 = .threw ∧
    onmutableput env0 stM1 reqPutLow = .threw ∧
    onmutableputSpec env0 stM1 reqPut2 = .ok stM1 (some (.err SEQ_REUSED)) ∧
    onmutableputSpec env0 stM1 reqPutLow = .ok stM1 (some (.err SEQ_TOO_LOW)) := by
  decide

/-- C3: evaluation of findPeer after a self-announce at concrete inputs. The
announce installs the router entry under the hex string of the target, yet
the findPeer reply is the null payload, because line 75 looks the router Map
up with the raw target buffer and a Map never equates a buffer with a
string. -/
theorem findpeer_misses_router_entry :
    onannounce env0 st0 reqAnnA = .ok stAfterAnnA (some (.payload none)) ∧
    alGet stAfterAnnA.router (RKey.str (hexStr targetA)) =
      some ⟨42, encodePeer peerA⟩ ∧
    alGet stAfterAnnA.router (RKey.buf targetA) = none ∧
    onfindpeer env0 stAfterAnnA reqFindA =
      .ok stAfterAnnA (some (.payload none)) := by
  decide

/-- C10: evaluation of an identical re-put at concrete inputs. Re-putting
the byte-identical record (same seq, same value) makes the handler throw at
line 224 instead of accepting and acknowledging it; the spec-modelled
handler with the decode in place accepts it and leaves the stored record
unchanged. -/
theorem mutableput_identical_reput_throws :
    onmutableput env0 stM1 reqPut1 = .threw ∧
    onmutableputSpec env0 stM1 reqPut1 = .ok stM1 (some (.payload none)) := by
  decide

/-- C4: for every lookup request with a target, the handler replies with the
computed record list: it holds at most 20 records, the router record is
appended exactly when the router has the key and fewer than 20 cache records
were found, and an empty list is sent as the null payload. -/
theorem lookup_reply_bounded (env : Env) (st : State) (req : Req)
    (target : Bytes) (fwd : RouterEntry) (ht : req.target = some target) :
    (lookupRecords st (hexStr target)).length ≤ 20 ∧
    onlookup env st req =
      .ok st (some (.payload
        (if (lookupRecords st (hexStr target)).length = 0 then none
         else some (encodeRawArray (lookupRecords st (hexStr target)))))) ∧
    (alGet st.router (RKey.str (hexStr target)) = none →
      lookupRecords st (hexStr target) = recGet st.records (hexStr target) 20) ∧
    (alGet st.router (RKey.str (hexStr target)) = some fwd →
      (recGet st.records (hexStr target) 20).length < 20 →
      lookupRecords st (hexStr target) =
        recGet st.records (hexStr target) 20 ++ [fwd.record]) ∧
    (alGet st.router (RKey.str (hexStr target)) = some fwd →
      ¬ (recGet st.records (hexStr target) 20).length < 20 →
      lookupRecords st (hexStr target) = recGet st.records (hexStr target) 20) := by
  obtain ⟨rt, rtok, rv, rf⟩ := req
  simp only at ht
  subst ht
  refine ⟨lookupRecords_length_le st (hexStr target), ?_, ?_, ?_, ?_⟩
  · simp [onlookup]
  · intro h
    simp [lookupRecords, h]
  · intro h hl
    simp [lookupRecords, h, hl]
  · intro h hl
    simp [lookupRecords, h, hl]

/-- Witness for C4 at a concrete store with one cache record and a router
entry: the reply appends the router record and stays within the bound. -/
theorem lookup_reply_bounded_witness :
    (lookupRecords stL (hexStr targetA)).length ≤ 20 ∧
    onlookup env0 stL reqLookA =
      .ok stL (some (.payload
        (if (lookupRecords stL (hexStr targetA)).length = 0 then none
         else some (encodeRawArray (lookupRecords stL (hexStr targetA)))))) ∧
    lookupRecords stL (hexStr targetA) =
      recGet stL.records (hexStr targetA) 20 ++ [[1]] := by
  have h := lookup_reply_bounded env0 stL reqLookA targetA ⟨9, [1]⟩ rfl
  exact ⟨h.1, h.2.1, h.2.2.2.1 (by decide) (by decide)⟩

/-- C5: a refresh whose token hashes to a bound slot replays the stored
record — into the router (relay = the request sender) when the slot was
marked announceSelf, into the record cache otherwise — deletes the slot
keyed by the hex of the hash of the token, re-binds the entry under the hex
of the token itself, and involves no signature verification (the handler is
unchanged under any verify function); a refresh whose token matches no slot
changes nothing and produces no reply. -/
theorem refresh_replays_and_rotates (env : Env)
    (vf : Bytes → Bytes → Bytes → Bool) (st stMiss : State) (token : Bytes)
    (req : Req) (r : RefreshEntry)
    (h : alGet st.refreshes (hexStr (env.gh token)) = some r)
    (hmiss : alGet stMiss.refreshes (hexStr (env.gh token)) = none) :
    onrefresh env st token req =
      .ok (refreshStore st req.fromNode r (hexStr (env.gh token)) (hexStr token))
        (some (.payload none)) ∧
    alGet (refreshStore st req.fromNode r (hexStr (env.gh token))
        (hexStr token)).refreshes (hexStr token) = some r ∧
    (hexStr (env.gh token) ≠ hexStr token →
      alGet (refreshStore st req.fromNode r (hexStr (env.gh token))
          (hexStr token)).refreshes (hexStr (env.gh token)) = none) ∧
    (r.announceSelf = true →
      alGet (refreshStore st req.fromNode r (hexStr (env.gh token))
          (hexStr token)).router (RKey.str r.k) =
        some ⟨req.fromNode, r.record⟩ ∧
      recLookup (refreshStore st req.fromNode r (hexStr (env.gh token))
          (hexStr token)).records r.k (r.record.take 32) = none) ∧
    (r.announceSelf = false →
      (refreshStore st req.fromNode r (hexStr (env.gh token))
          (hexStr token)).router = st.router ∧
      recLookup (refreshStore st req.fromNode r (hexStr (env.gh token))
          (hexStr token)).records r.k (r.record.take 32) = some r.record) ∧
    onrefresh { env with verify := vf } st token req =
      onrefresh env st token req ∧
    onrefresh env stMiss token req = .ok stMiss none := by
  refine ⟨?_, ?_, ?_, ?_, ?_, ?_, ?_⟩
  · simp [onrefresh, h]
  · cases hself : r.announceSelf <;>
      simp [refreshStore, hself, alGet_alSet]
  · intro hne
    cases hself : r.announceSelf <;>
      simp [refreshStore, hself, alGet_alSet, alGet_alDelete, hne]
  · intro hself
    simp [refreshStore, hself, alGet_alSet, recLookup_recRemove]
  · intro hself
    simp [refreshStore, hself, recLookup_recAdd_self]
  · rfl
  · simp [onrefresh, hmiss]

/-- Witness for C5 at a concrete slot: the record is replayed into the
router, the hash-indexed slot is cleared and the entry is re-bound under the
token itself. -/
theorem refresh_replays_and_rotates_witness :
    onrefresh env0 stR tokenW reqR =
      .ok (refreshStore stR 8 rW (hexStr (env0.gh tokenW)) (hexStr tokenW))
        (some (.payload none)) ∧
    alGet (refreshStore stR 8 rW (hexStr (env0.gh tokenW))
        (hexStr tokenW)).refreshes (hexStr tokenW) = some rW ∧
    alGet (refreshStore stR 8 rW (hexStr (env0.gh tokenW))
        (hexStr tokenW)).refreshes (hexStr (env0.gh tokenW)) = none ∧
    alGet (refreshStore stR 8 rW (hexStr (env0.gh tokenW))
        (hexStr tokenW)).router (RKey.str rW.k) = some ⟨8, rW.record⟩ ∧
    onrefresh env0 st0 tokenW reqR = .ok st0 none := by
  have h := refresh_replays_and_rotates env0 (fun _ _ _ => false) stR st0
    tokenW reqR rW (by decide) (by decide)
  exact ⟨h.1, h.2.1, h.2.2.1 (by decide), (h.2.2.2.1 rfl).1, h.2.2.2.2.2.2⟩

/-- C6: for every unannounce request with target, token and a decodable
payload carrying a peer and a signature, the handler acts only when the
UNANNOUNCE-namespaced signature over the batch-hash signable of target, node
id, token, encoded peer and refresh-or-empty verifies under the peer's
publicKey; on success it deletes the router entry for the target exactly
when the hash of the publicKey equals the target, and always removes the
(target, publicKey) tuple from the record cache. -/
theorem unannounce_removes_verified (env : Env) (st : State) (req : Req)
    (target token v : Bytes) (unann : Announce) (peer : Peer)
    (signature : Bytes)
    (ht : req.target = some target) (htok : req.token = some token)
    (hv : req.value = some v) (hd : decodeAnnounce v = some unann)
    (hp : unann.peer = some peer) (hs : unann.signature = some signature) :
    (env.verify signature
        (annSignablePeer env target token peer unann.refresh NS_UNANNOUNCE)
        peer.publicKey = false →
      onunannounce env st req = .ok st none) ∧
    (env.verify signature
        (annSignablePeer env target token peer unann.refresh NS_UNANNOUNCE)
        peer.publicKey = true →
      onunannounce env st req =
        .ok (unannounceStep env st target peer.publicKey)
          (some (.payload none)) ∧
      (env.gh peer.publicKey = target →
        alGet (unannounceStep env st target peer.publicKey).router
          (RKey.str (hexStr target)) = none) ∧
      (env.gh peer.publicKey ≠ target →
        (unannounceStep env st target peer.publicKey).router = st.router) ∧
      recLookup (unannounceStep env st target peer.publicKey).records
        (hexStr target) peer.publicKey = none) := by
  obtain ⟨rt, rtok, rv, rf⟩ := req
  simp only at ht htok hv
  subst ht htok hv
  constructor
  · intro hver
    simp [onunannounce, hd, hp, hs, hver]
  · intro hver
    refine ⟨?_, ?_, ?_, ?_⟩
    · simp [onunannounce, hd, hp, hs, hver]
    · intro hgh
      simp [unannounceStep, hgh, alGet_alDelete]
    · intro hgh
      simp [unannounceStep, hgh]
    · simp [unannounceStep, recLookup_recRemove]

/-- Witness for C6: unannouncing the installed self-announce of peerA
removes the router entry and leaves no cache tuple. -/
theorem unannounce_removes_verified_witness :
    onunannounce env0 stAfterAnnA reqUnannA =
      .ok (unannounceStep env0 stAfterAnnA targetA peerA.publicKey)
        (some (.payload none)) ∧
    alGet (unannounceStep env0 stAfterAnnA targetA peerA.publicKey).router
      (RKey.str (hexStr targetA)) = none ∧
    recLookup (unannounceStep env0 stAfterAnnA targetA
      peerA.publicKey).records (hexStr targetA) peerA.publicKey = none := by
  have h := unannounce_removes_verified env0 stAfterAnnA reqUnannA targetA [2]
    (encodeAnnounce annA) annA peerA [3, 3] rfl rfl rfl (by decide) rfl rfl
  have h2 := h.2 rfl
  exact ⟨h2.1, h2.2.1 (by decide), h2.2.2.2⟩

/-- C7: an immutable put with target, token and value present is accepted —
stored under the hex of the hash and acknowledged — exactly when the hash of
the value equals the target; on a mismatch the request is dropped without a
reply and an immutable get for that target (when nothing is stored there)
replies the null payload. -/
theorem immutable_put_iff_hash (env : Env) (st : State) (req reqGet : Req)
    (target token v : Bytes)
    (ht : req.target = some target) (htok : req.token = some token)
    (hv : req.value = some v) (htg : reqGet.target = some target) :
    (env.gh v = target →
      onimmutableput env st req =
        .ok { st with immutables := alSet st.immutables (hexStr (env.gh v)) v }
          (some (.payload none)) ∧
      alGet (alSet st.immutables (hexStr (env.gh v)) v) (hexStr (env.gh v)) =
        some v) ∧
    (env.gh v ≠ target →
      onimmutableput env st req = .ok st none ∧
      (alGet st.immutables (hexStr target) = none →
        onimmutableget env st reqGet = .ok st (some (.payload none)))) := by
  obtain ⟨rt, rtok, rv, rf⟩ := req
  obtain ⟨gt, gtok, gv, gf⟩ := reqGet
  simp only at ht htok hv htg
  subst ht htok hv htg
  constructor
  · intro hgh
    exact ⟨by simp [onimmutableput, hgh], by simp [alGet_alSet]⟩
  · intro hgh
    refine ⟨by simp [onimmutableput, hgh], ?_⟩
    intro hempty
    simp [onimmutableget, hempty]

/-- Witness for C7: the matching put stores and acknowledges; the
mismatching put is dropped and the following get replies null. -/
theorem immutable_put_iff_hash_witness :
    onimmutableput env0 st0 reqImmOk =
      .ok { st0 with immutables := alSet st0.immutables (hexStr [1]) [1] }
        (some (.payload none)) ∧
    alGet (alSet st0.immutables (hexStr [1]) [1]) (hexStr [1]) = some [1] ∧
    onimmutableput env0 st0 reqImmBad = .ok st0 none ∧
    onimmutableget env0 st0 reqImmGet = .ok st0 (some (.payload none)) := by
  have hok := immutable_put_iff_hash env0 st0 reqImmOk
    (⟨some [1], none, none, 5⟩ : Req) [1] [2] [1] rfl rfl rfl rfl
  have hbad := immutable_put_iff_hash env0 st0 reqImmBad reqImmGet [2] [2] [1]
    rfl rfl rfl rfl
  have h1 := hok.1 (by decide)
  have h2 := hbad.2 (by decide)
  exact ⟨h1.1, h1.2, h2.1, h2.2 (by decide)⟩

/-- C8: for every store handler, a validation failure — missing target or
token, missing or unparseable payload, a bad signature, or a wrong target
hash — makes the handler return without sending any reply and without
throwing; the refresh handler is likewise silent on an unknown token. (The
typed SEQ_REUSED and SEQ_TOO_LOW errors of the mutable put conflict path are
the stated exception; see the C2 theorem for that path.) -/
theorem handlers_silent_on_validation_failure (env : Env) (st : State)
    (t tok vA vA2 vM vM2 vI tk : Bytes) (f : Nat) (annv : Announce)
    (peer : Peer) (sig : Bytes) (p : MutablePutRequest) (value : Bytes) :
    onlookup env st ⟨none, some tok, some vA, f⟩ = .ok st none ∧
    onfindpeer env st ⟨none, some tok, some vA, f⟩ = .ok st none ∧
    onannounce env st ⟨none, some tok, some vA, f⟩ = .ok st none ∧
    onunannounce env st ⟨none, some tok, some vA, f⟩ = .ok st none ∧
    onmutableget env st ⟨none, some tok, some vA, f⟩ = .ok st none ∧
    onmutableput env st ⟨none, some tok, some vA, f⟩ = .ok st none ∧
    onimmutableget env st ⟨none, some tok, some vA, f⟩ = .ok st none ∧
    onimmutableput env st ⟨none, some tok, some vA, f⟩ = .ok st none ∧
    onannounce env st ⟨some t, none, some vA, f⟩ = .ok st none ∧
    onunannounce env st ⟨some t, none, some vA, f⟩ = .ok st none ∧
    onmutableput env st ⟨some t, none, some vA, f⟩ = .ok st none ∧
    onimmutableput env st ⟨some t, none, some vA, f⟩ = .ok st none ∧
    onannounce env st ⟨some t, some tok, none, f⟩ = .ok st none ∧
    onunannounce env st ⟨some t, some tok, none, f⟩ = .ok st none ∧
    onmutableget env st ⟨some t, some tok, none, f⟩ = .ok st none ∧
    onmutableput env st ⟨some t, some tok, none, f⟩ = .ok st none ∧
    onimmutableput env st ⟨some t, some tok, none, f⟩ = .ok st none ∧
    (decodeAnnounce vA = none →
      onannounce env st ⟨some t, some tok, some vA, f⟩ = .ok st none ∧
      onunannounce env st ⟨some t, some tok, some vA, f⟩ = .ok st none) ∧
    (decodeMPR vM = none →
      onmutableput env st ⟨some t, some tok, some vM, f⟩ = .ok st none) ∧
    onmutableget env st ⟨some t, some tok, some [], f⟩ = .ok st none ∧
    (alGet st.refreshes (hexStr (env.gh tk)) = none →
      onrefresh env st tk ⟨some t, some tok, none, f⟩ = .ok st none) ∧
    (decodeAnnounce vA2 = some annv → annv.peer = some peer →
      annv.signature = some sig →
      env.verify sig (annSignablePeer env t tok peer annv.refresh NS_ANNOUNCE)
        peer.publicKey = false →
      onannounce env st ⟨some t, some tok, some vA2, f⟩ = .ok st none) ∧
    (decodeAnnounce vA2 = some annv → annv.peer = some peer →
      annv.signature = some sig →
      env.verify sig
          (annSignablePeer env t tok peer annv.refresh NS_UNANNOUNCE)
        peer.publicKey = false →
      onunannounce env st ⟨some t, some tok, some vA2, f⟩ = .ok st none) ∧
    (decodeMPR vM2 = some p → env.gh p.publicKey = t → p.value = some value →
      verifyMutable env p.signature p.seq value p.publicKey = false →
      onmutableput env st ⟨some t, some tok, some vM2, f⟩ = .ok st none) ∧
    (decodeMPR vM2 = some p → env.gh p.publicKey ≠ t →
      onmutableput env st ⟨some t, some tok, some vM2, f⟩ = .ok st none) ∧
    (env.gh vI ≠ t →
      onimmutableput env st ⟨some t, some tok, some vI, f⟩ = .ok st none) := by
  refine ⟨rfl, rfl, rfl, rfl, rfl, rfl, rfl, rfl, rfl, rfl, rfl, rfl, rfl,
    rfl, rfl, rfl, rfl, ?_, ?_, rfl, ?_, ?_, ?_, ?_, ?_, ?_⟩
  · intro hd
    exact ⟨by simp [onannounce, hd], by simp [onunannounce, hd]⟩
  · intro hd
    simp [onmutableput, hd]
  · intro hmiss
    simp [onrefresh, hmiss]
  · intro hd hp hs hver
    simp [onannounce, hd, hp, hs, hver]
  · intro hd hp hs hver
    simp [onunannounce, hd, hp, hs, hver]
  · intro hd hh hpv hver
    simp [onmutableput, hd, hh, hpv, hver]
  · intro hd hh
    simp [onmutableput, hd, hh]
  · intro hh
    simp [onimmutableput, hh]

/-- Witness for C8 at concrete inputs: a missing target, an unparseable
announce payload, an unknown refresh token, a bad announce signature, a bad
mutable signature and a wrong immutable hash are all silently dropped. -/
theorem handlers_silent_on_validation_failure_witness :
    onannounce envF st0 ⟨none, some [2], some [9, 9], 3⟩ = .ok st0 none ∧
    onannounce envF st0 ⟨some pkM, some [2], some [9, 9], 3⟩ = .ok st0 none ∧
    onunannounce envF st0 ⟨some pkM, some [2], some [9, 9], 3⟩ = .ok st0 none ∧
    onmutableput envF st0 ⟨some pkM, some [2], some [], 3⟩ = .ok st0 none ∧
    onrefresh envF st0 [4] ⟨some pkM, some [2], none, 3⟩ = .ok st0 none ∧
    onannounce envF st0
      ⟨some pkM, some [2], some (encodeAnnounce annA), 3⟩ = .ok st0 none ∧
    onmutableput envF st0
      ⟨some pkM, some [2], some (encodeMPR mpr1), 3⟩ = .ok st0 none ∧
    onimmutableput envF st0 ⟨some pkM, some [2], some [9], 3⟩ = .ok st0 none := by
  have h := handlers_silent_on_validation_failure envF st0 pkM [2] [9, 9]
    (encodeAnnounce annA) [] (encodeMPR mpr1) [9] [4] 3 annA peerA [3, 3]
    mpr1 [10]
  exact ⟨h.1, (h.2.2.2.2.2.2.2.2.2.2.2.2.2.2.2.2.2.1 (by decide)).1,
    (h.2.2.2.2.2.2.2.2.2.2.2.2.2.2.2.2.2.1 (by decide)).2,
    h.2.2.2.2.2.2.2.2.2.2.2.2.2.2.2.2.2.2.1 (by decide),
    h.2.2.2.2.2.2.2.2.2.2.2.2.2.2.2.2.2.2.2.2.1 (by decide),
    h.2.2.2.2.2.2.2.2.2.2.2.2.2.2.2.2.2.2.2.2.2.1 (by decide) rfl rfl rfl,
    h.2.2.2.2.2.2.2.2.2.2.2.2.2.2.2.2.2.2.2.2.2.2.2.1 (by decide) (by decide)
      rfl rfl,
    h.2.2.2.2.2.2.2.2.2.2.2.2.2.2.2.2.2.2.2.2.2.2.2.2.2 (by decide)⟩

/-- C9: when the server's holepunch hook vetoes during connection
establishment, the client connect socket sees a terminal error with code
HOLEPUNCH_ABORTED followed by close, and the server's onConnection callback
never fires (spec-modelled connection establishment). -/
theorem server_hook_abort (serverHook clientHook : Hook)
    (sfw cfw : Firewall) (sa ca : Addr) (punch : Bool)
    (hveto : serverHook cfw sfw ca sa = false) :
    establishConnection serverHook clientHook sfw cfw sa ca punch =
      { clientEvents := [.errored HOLEPUNCH_ABORTED, .closed]
        serverConnection := false } := by
  simp [establishConnection, hveto]

/-- Witness for C9: a server hook that always returns false aborts the
attempt. -/
theorem server_hook_abort_witness :
    establishConnection (fun _ _ _ _ => false) (fun _ _ _ _ => true)
        .consistent .consistent ⟨1, 1⟩ ⟨2, 2⟩ true =
      { clientEvents := [.errored HOLEPUNCH_ABORTED, .closed]
        serverConnection := false } :=
  server_hook_abort (fun _ _ _ _ => false) (fun _ _ _ _ => true)
    .consistent .consistent ⟨1, 1⟩ ⟨2, 2⟩ true rfl

end HyperswarmDht
